import Mathlib

set_option maxRecDepth 100000

/-!
Shallow embedding of the continuous-agent workflow core from
`agent-workflow/continuous-agent.js`:

* `analyzeRecentPRs` / `generatePRSummary` — change-set analysis,
* `generateTasks` — task synthesis from an analysis,
* `generateProgressSection` / `updateReadmeProgress` — README section patching.

JavaScript strings are modelled as `List Char` where the patcher slices
documents by index (`String.prototype.indexOf` is modelled by `firstIdx`,
`substring` by `List.take`/`List.drop`), and as Lean `String` where the code
only builds or tests strings (`includes` is modelled by `includesStr`,
`endsWith` by `endsWithStr`, template literals by `++`).  External collaborator
calls (the change-set listing and the per-record file listing) are passed in as
`Except`-valued inputs, mirroring the `try`/`catch` boundaries of the source.
-/

namespace ContinuousAgent

/-- `pre p s` holds when the pattern `p` matches at the very start of `s`
(the character-by-character test underlying the `indexOf` model). -/
def pre : List Char → List Char → Bool
  | [], _ => true
  | _ :: _, [] => false
  | a :: p, b :: s => a == b && pre p s

/-- Model of `String.prototype.indexOf`: index of the first occurrence of
`pat` in `s` (`none` for JavaScript's `-1`). -/
def firstIdx (pat : List Char) : List Char → Option Nat
  | [] => if pre pat [] then some 0 else none
  | b :: s => if pre pat (b :: s) then some 0 else (firstIdx pat s).map (· + 1)

/-- A pattern has no nontrivial border when no proper suffix of it equals a
proper prefix of it; such a pattern cannot match straddling a junction that is
immediately followed by a full copy of the pattern. -/
def NoBorder (p : List Char) : Prop :=
  ∀ k, 0 < k → k < p.length → p.drop k ≠ p.take (p.length - k)

/-- Executable check for `NoBorder`, used to `decide` it on the concrete
marker strings of the program. -/
def noBorderB (p : List Char) : Bool :=
  (List.range p.length).all fun k => k == 0 || !(p.drop k == p.take (p.length - k))

/-- Model of `String.prototype.includes`. -/
def includesStr (s sub : String) : Bool :=
  (firstIdx sub.toList s.toList).isSome

/-- Model of `String.prototype.endsWith`. -/
def endsWithStr (s suffix : String) : Bool :=
  pre suffix.toList.reverse s.toList.reverse

/-- Model of Node's `path.extname`: the substring of the basename from its
last `.` on, or `""` when the basename has no `.` past its first character. -/
def extname (p : String) : String :=
  let base := (p.toList.reverse.takeWhile fun c => c != '/').reverse
  let afterDot := base.reverse.takeWhile fun c => c != '.'
  if afterDot.length = base.length then ""
  else if base.length - afterDot.length - 1 = 0 then ""
  else String.mk (base.drop (base.length - afterDot.length - 1))

/-- One file entry of a pull request, as mapped from the collaborator's
`listFiles` response (`{filename, status, additions, deletions}`). -/
structure FileInfo where
  filename : String
  status : String
  additions : Nat
  deletions : Nat
deriving DecidableEq

/-- One pull request as returned by the collaborator's `pulls.list` call;
`merged_at` is `none` for a PR that was closed without being merged. -/
structure RawPR where
  number : Nat
  title : String
  body : String
  merged_at : Option String
deriving DecidableEq

/-- One analyzed record of `analysis.recentPRs` (`prAnalysis` in the source). -/
structure PRAnalysis where
  number : Nat
  title : String
  body : String
  mergedAt : String
  files : List FileInfo
  summary : String
deriving DecidableEq

/-- The analysis object produced by `analyzeRecentPRs`. -/
structure Analysis where
  timestamp : String
  totalPRs : Nat
  recentPRs : List PRAnalysis
  error : Option String := none
deriving DecidableEq

/-- One synthesized task of `generateTasks`.  Every produced task carries both
the literal `category` field spread in from `baseTask` and the per-rule `type`
field of its own object literal. -/
structure Task where
  id : String
  createdAt : String
  priority : String
  category : String
  title : String
  description : String
  type : String
  estimatedHours : Nat
  files : List String
deriving DecidableEq

/-- `generatePRSummary(pr, files)`: the `fileTypes` tally makes
`fileTypes[ext]` truthy exactly when some file has extension `ext`. -/
def generatePRSummary (pr : RawPR) (files : List FileInfo) : String :=
  let has : String → Bool := fun ext => files.any fun f => extname f.filename == ext
  let categories : List String :=
    (if has ".md" then ["documentation"] else []) ++
    (if has ".js" || has ".json" then ["automation"] else []) ++
    (if has ".yml" || has ".yaml" then ["workflows"] else []) ++
    (if has ".ipynb" then ["notebook"] else [])
  pr.title ++ " - Modified " ++ toString files.length ++ " files (" ++
    String.intercalate ", " categories ++ ")"

/-- `analyzeRecentPRs()`: `listing` is the outcome of the `pulls.list` call,
`fetchFiles` the outcome of `pulls.listFiles` per PR number, and `now` the run
timestamp.  A failed listing yields the zero analysis carrying the error; a
failed per-PR file fetch leaves that record's `files` as `[]` (the initial
value of `prAnalysis.files`) while the record itself is still summarized. -/
def analyzeRecentPRs (listing : Except String (List RawPR))
    (fetchFiles : Nat → Except String (List FileInfo)) (now : String) : Analysis :=
  match listing with
  | .error e => { timestamp := now, totalPRs := 0, recentPRs := [], error := some e }
  | .ok prs =>
    let mergedPRs := prs.filter fun pr => pr.merged_at.isSome
    let recent := (mergedPRs.take 5).map fun pr =>
      let files := match fetchFiles pr.number with
        | .ok fs => fs
        | .error _ => []
      { number := pr.number, title := pr.title, body := pr.body,
        mergedAt := pr.merged_at.getD "", files := files,
        summary := generatePRSummary pr files : PRAnalysis }
    { timestamp := now, totalPRs := mergedPRs.length, recentPRs := recent, error := none }

/-- `hasWorkflowChanges` of `generateTasks`. -/
def hasWorkflowChanges (analysis : Analysis) : Bool :=
  analysis.recentPRs.any fun pr => pr.files.any fun f =>
    includesStr f.filename ".github/workflows"

/-- `hasDocumentationChanges` of `generateTasks`. -/
def hasDocumentationChanges (analysis : Analysis) : Bool :=
  analysis.recentPRs.any fun pr => pr.files.any fun f => endsWithStr f.filename ".md"

/-- `hasNotebookChanges` of `generateTasks`. -/
def hasNotebookChanges (analysis : Analysis) : Bool :=
  analysis.recentPRs.any fun pr => pr.files.any fun f => endsWithStr f.filename ".ipynb"

/-- The task literal pushed by the documentation-gap rule of `generateTasks`;
the fields `createdAt`, `priority` and `category` are spread in from
`baseTask` (whose `id` `"task-" ++ toString nowMs` is always overridden). -/
def docTask (nowMs : Nat) (nowISO : String) : Task :=
  { id := "doc-update-" ++ toString nowMs, createdAt := nowISO,
    priority := "medium", category := "enhancement",
    title := "Enhance documentation with usage examples",
    description := "Add more detailed usage examples and troubleshooting guides to improve user experience",
    type := "documentation", estimatedHours := 2, files := ["README.md"] }

/-- The task literal pushed by the workflow-optimization rule of
`generateTasks`. -/
def workflowTask (nowMs : Nat) (nowISO : String) : Task :=
  { id := "workflow-opt-" ++ toString nowMs, createdAt := nowISO,
    priority := "medium", category := "enhancement",
    title := "Optimize automated workflows",
    description := "Review and optimize GitHub Actions workflows for better performance and reliability",
    type := "automation", estimatedHours := 3, files := [".github/workflows/*"] }

/-- The task literal pushed by the notebook-enhancement rule of
`generateTasks`. -/
def notebookTask (nowMs : Nat) (nowISO : String) : Task :=
  { id := "notebook-enhance-" ++ toString nowMs, createdAt := nowISO,
    priority := "medium", category := "enhancement",
    title := "Add error handling to notebook",
    description := "Improve error handling and user feedback in the Google Drive transfer notebook",
    type := "feature", estimatedHours := 4, files := ["rclone_gdrive_transfer.ipynb"] }

/-- The fallback task literal pushed by `generateTasks` when no rule fired. -/
def generalTask (nowMs : Nat) (nowISO : String) : Task :=
  { id := "general-improve-" ++ toString nowMs, createdAt := nowISO,
    priority := "medium", category := "enhancement",
    title := "General codebase improvements",
    description := "Review and improve code quality, add tests, or enhance user experience",
    type := "maintenance", estimatedHours := 2,
    files := ["README.md", "rclone_gdrive_transfer.ipynb"] }

/-- `generateTasks(analysis)`: `nowMs` models `now.getTime()` and `nowISO`
models `now.toISOString()` of the single `Date` taken at entry.  The pattern
rules push their tasks in source order (documentation gap, then workflow
optimization, then notebook enhancement) only when `recentPRs` is non-empty;
the fallback task is pushed exactly when no task was produced. -/
def generateTasks (analysis : Analysis) (nowMs : Nat) (nowISO : String) : List Task :=
  let tasks : List Task :=
    if analysis.recentPRs.length > 0 then
      (if !hasDocumentationChanges analysis then [docTask nowMs nowISO] else []) ++
      (if hasWorkflowChanges analysis then [workflowTask nowMs nowISO] else []) ++
      (if hasNotebookChanges analysis then [notebookTask nowMs nowISO] else [])
    else []
  if tasks.length = 0 then [generalTask nowMs nowISO] else tasks

/-- `generateProgressSection(tasks)`; `now` models
`new Date().toLocaleString()`. -/
def generateProgressSection (tasks : List Task) (now : String) : String :=
  let base := "## 🤖 Automated Development Status\n\n" ++
    "*Last updated: " ++ now ++ " by Continuous Coding Agent*\n\n"
  let mid :=
    if tasks.length > 0 then
      "### 🎯 Current Development Tasks\n\n" ++
      String.join (tasks.enum.map fun p =>
        toString (p.1 + 1) ++ ". **" ++ p.2.title ++ "**\n" ++
        "   - Type: " ++ p.2.type ++ "\n" ++
        "   - Priority: " ++ p.2.priority ++ "\n" ++
        "   - Estimated: " ++ toString p.2.estimatedHours ++ "h\n" ++
        "   - Description: " ++ p.2.description ++ "\n\n") ++
      "### 📊 Development Metrics\n\n" ++
      "- Active tasks: " ++ toString tasks.length ++ "\n" ++
      "- Total estimated hours: " ++
        toString (tasks.foldl (fun sum task => sum + task.estimatedHours) 0) ++ "h\n" ++
      "- Agent status: ✅ Active\n\n"
    else
      "### ✅ No Active Tasks\n\n" ++
      "The continuous agent has analyzed recent activity and found no immediate tasks requiring attention.\n\n"
  base ++ mid ++
    "*This section is automatically maintained by the continuous coding agent workflow.*\n"

/-- The literal marker heading `progressMarker` of `updateReadmeProgress`. -/
def markerL : List Char := "## 🤖 Automated Development Status".toList

/-- The literal anchor heading searched for first-time insertion. -/
def anchorL : List Char := "## 📄 License".toList

/-- The section-boundary pattern `'\n## '` searched in `afterProgress`. -/
def nl4L : List Char := "\n## ".toList

/-- The `'\n\n'` separator inserted around a freshly added section. -/
def nl2L : List Char := "\n\n".toList

/-- The pure locate-and-replace core of `updateReadmeProgress` (source lines
280–308): replace from the marker up to the next `'\n## '` boundary when the
marker is present, otherwise insert before the anchor heading or append at the
end of the document. -/
def patchSection (readmeContent : List Char) (progressSection : List Char) : List Char :=
  match firstIdx markerL readmeContent with
  | some existingProgressIndex =>
    let afterProgress := readmeContent.drop (existingProgressIndex + markerL.length)
    match firstIdx nl4L afterProgress with
    | some nextSectionIndex =>
      readmeContent.take existingProgressIndex ++ progressSection ++
        afterProgress.drop nextSectionIndex
    | none => readmeContent.take existingProgressIndex ++ progressSection
  | none =>
    match firstIdx anchorL readmeContent with
    | some licenseIndex =>
      readmeContent.take licenseIndex ++ progressSection ++ nl2L ++
        readmeContent.drop licenseIndex
    | none => readmeContent ++ nl2L ++ progressSection

/-- `updateReadmeProgress(tasks)` applied to an in-memory document:
generate the progress section for `tasks` and patch it into the document. -/
def updateReadmeProgress (readmeContent : List Char) (tasks : List Task)
    (now : String) : List Char :=
  patchSection readmeContent (generateProgressSection tasks now).toList

/-- A valid empty analysis (`recentPRs = []`), as produced for a repository
with no merged PRs. -/
def emptyAnalysis : Analysis :=
  { timestamp := "2025-01-01T00:00:00.000Z", totalPRs := 0, recentPRs := [], error := none }

/-- Another empty analysis differing from `emptyAnalysis` in every
non-rule-relevant field (timestamp, total count, error marker). -/
def otherEmptyAnalysis : Analysis :=
  { timestamp := "1999-12-31T23:59:59.000Z", totalPRs := 42, recentPRs := [], error := some "boom" }

/-- An analysis with one record whose only file delta is the literal path
`pipeline/ci.yml` of spec Scenario B. -/
def ciAnalysis : Analysis :=
  { timestamp := "2025-01-01T00:00:00.000Z", totalPRs := 1,
    recentPRs := [
      { number := 7, title := "Add CI", body := "adds a pipeline", mergedAt := "2025-01-01T00:00:00Z",
        files := [{ filename := "pipeline/ci.yml", status := "added", additions := 30, deletions := 0 }],
        summary := "Add CI - Modified 1 files (workflows)" }],
    error := none }

/-- The single file delta of `workflowsAnalysis`, under `.github/workflows`. -/
def workflowsFile : FileInfo :=
  { filename := ".github/workflows/ci.yml", status := "added", additions := 30, deletions := 0 }

/-- The single record of `workflowsAnalysis`. -/
def workflowsPR : PRAnalysis :=
  { number := 7, title := "Add CI", body := "adds a pipeline", mergedAt := "2025-01-01T00:00:00Z",
    files := [workflowsFile], summary := "Add CI - Modified 1 files (workflows)" }

/-- An analysis with one record whose only file delta lies under the
`.github/workflows` directory the source actually tests for. -/
def workflowsAnalysis : Analysis :=
  { timestamp := "2025-01-01T00:00:00.000Z", totalPRs := 1,
    recentPRs := [workflowsPR], error := none }

/-- A merged raw PR used to exercise the per-record file-fetch failure path. -/
def mergedRawPR : RawPR :=
  { number := 3, title := "T", body := "B", merged_at := some "2025-01-01T00:00:00Z" }

/-- A file-listing collaborator that fails for every PR number. -/
def failingFetch : Nat → Except String (List FileInfo) := fun _ => Except.error "boom"

/-- A generated progress section (empty task list, run timestamp `"T"`). -/
def genSec : List Char := (generateProgressSection [] "T").toList

/-- Everything of `genSec` after the marker heading. -/
def genSecTail : List Char := genSec.drop markerL.length

/-- A document with no marker heading and with the `## 📄 License` anchor
heading the source searches for. -/
def anchorDoc : List Char := "# Proj\n\nIntro.\n\n## 📄 License\n\nMIT\n".toList

/-- A document with no marker heading whose license heading is the plain
`## License` (without the emoji of the literal anchor in the source). -/
def plainLicenseDoc : List Char := "# Tool\n\nIntro.\n\n## License\nMIT\n".toList

/-- A document that already contains the marker heading, a stale section body
and a following same-level heading. -/
def markedDoc : List Char :=
  "## 🤖 Automated Development Status\nold\n\n## Next\ntext\n".toList

/-- A progress section produced by the real pipeline: the synthesizer's output
on `emptyAnalysis` rendered by `generateProgressSection`. -/
def pipelineSec : List Char :=
  (generateProgressSection (generateTasks emptyAnalysis 0 "2025-01-01T00:00:00.000Z")
    "1/1/2025, 12:00:00 AM").toList

/-- Everything of `pipelineSec` after the marker heading. -/
def pipelineSecTail : List Char := pipelineSec.drop markerL.length

/-! ### Properties of the `indexOf` model -/

theorem pre_eq_true_iff (p s : List Char) : pre p s = true ↔ s.take p.length = p := by
  induction p generalizing s with
  | nil => simp [pre]
  | cons a p ih =>
    cases s with
    | nil => simp [pre]
    | cons b s =>
      simp only [pre, Bool.and_eq_true, beq_iff_eq, List.length_cons, List.take_succ_cons,
        List.cons.injEq, ih]
      exact ⟨fun ⟨h1, h2⟩ => ⟨h1.symm, h2⟩, fun ⟨h1, h2⟩ => ⟨h1.symm, h2⟩⟩

theorem pre_length {p s : List Char} (h : pre p s = true) : p.length ≤ s.length := by
  have h1 := (pre_eq_true_iff p s).mp h
  have h2 := congrArg List.length h1
  rw [List.length_take] at h2
  omega

theorem pre_append_self (p t : List Char) : pre p (p ++ t) = true := by
  rw [pre_eq_true_iff, List.take_left]

theorem pre_of_append_of_le {p X Y : List Char} (h : pre p (X ++ Y) = true)
    (hle : p.length ≤ X.length) : pre p X = true := by
  rw [pre_eq_true_iff] at h ⊢
  rwa [List.take_append_of_le_length hle] at h

theorem pre_split {p X Y : List Char} (h : pre p (X ++ Y) = true)
    (hlt : X.length < p.length) :
    X = p.take X.length ∧ pre (p.drop X.length) Y = true := by
  rw [pre_eq_true_iff] at h
  have hx : p.length = X.length + (p.length - X.length) := by omega
  rw [hx, List.take_append] at h
  refine ⟨by rw [← h, List.take_left], ?_⟩
  rw [pre_eq_true_iff, List.length_drop]
  conv_rhs => rw [← h]
  rw [List.drop_left]

theorem pre_of_pre_take {p t : List Char} {n : Nat} (h : pre p (t.take n) = true) :
    pre p t = true := by
  rw [pre_eq_true_iff] at h ⊢
  rw [List.take_take] at h
  have hlen := congrArg List.length h
  rw [List.length_take] at hlen
  have hle : p.length ≤ n := by omega
  rwa [Nat.min_eq_left hle] at h

theorem pre_nil_false {p : List Char} (hp : p ≠ []) : pre p [] = false := by
  cases p with
  | nil => exact absurd rfl hp
  | cons a p => rfl

theorem pre_cons_head {a : Char} {p s : List Char} (h : pre (a :: p) s = true) :
    ∃ s', s = a :: s' := by
  cases s with
  | nil => simp [pre] at h
  | cons b s =>
    simp only [pre, Bool.and_eq_true, beq_iff_eq] at h
    exact ⟨s, by rw [h.1]⟩

theorem noBorder_of_noBorderB {p : List Char} (h : noBorderB p = true) : NoBorder p := by
  intro k hk0 hk
  have hmem : k ∈ List.range p.length := List.mem_range.mpr hk
  have hall := List.all_eq_true.mp h k hmem
  simp only [Bool.or_eq_true, beq_iff_eq, Bool.not_eq_true', beq_eq_false_iff_ne, ne_eq] at hall
  rcases hall with h0 | hne
  · omega
  · exact hne

theorem firstIdx_pre_drop {pat s : List Char} {i : Nat} (h : firstIdx pat s = some i) :
    pre pat (s.drop i) = true := by
  induction s generalizing i with
  | nil =>
    simp only [firstIdx] at h
    split at h
    next hc => cases h; simpa using hc
    next => simp at h
  | cons b s ih =>
    simp only [firstIdx] at h
    split at h
    next hc => cases h; simpa using hc
    next =>
      rcases Option.map_eq_some'.mp h with ⟨i', hi', rfl⟩
      simpa using ih hi'

theorem firstIdx_min {pat s : List Char} {i : Nat} (h : firstIdx pat s = some i) :
    ∀ j, j < i → pre pat (s.drop j) = false := by
  induction s generalizing i with
  | nil =>
    intro j hj
    simp only [firstIdx] at h
    split at h
    next => cases h; omega
    next => simp at h
  | cons b s ih =>
    intro j hj
    simp only [firstIdx] at h
    split at h
    next => cases h; omega
    next hc =>
      rcases Option.map_eq_some'.mp h with ⟨i', hi', rfl⟩
      cases j with
      | zero =>
        simp only [List.drop_zero]
        cases hb : pre pat (b :: s) with
        | true => exact absurd hb hc
        | false => rfl
      | succ j => simpa using ih hi' j (by omega)

theorem firstIdx_eq_none_iff (pat s : List Char) :
    firstIdx pat s = none ↔ ∀ j, pre pat (s.drop j) = false := by
  induction s with
  | nil =>
    constructor
    · intro h j
      simp only [firstIdx] at h
      split at h
      next => simp at h
      next hc =>
        simp only [List.drop_nil]
        cases hb : pre pat [] with
        | true => exact absurd hb hc
        | false => rfl
    · intro h
      simp only [firstIdx]
      rw [if_neg]
      intro hc
      have := h 0
      rw [List.drop_nil] at this
      rw [hc] at this
      cases this
  | cons b s ih =>
    constructor
    · intro h j
      simp only [firstIdx] at h
      split at h
      next => simp at h
      next hc =>
        cases j with
        | zero =>
          simp only [List.drop_zero]
          cases hb : pre pat (b :: s) with
          | true => exact absurd hb hc
          | false => rfl
        | succ j =>
          have hs : firstIdx pat s = none := by
            cases hfi : firstIdx pat s with
            | none => rfl
            | some v => rw [hfi] at h; simp at h
          simpa using (ih.mp hs) j
    · intro h
      simp only [firstIdx]
      rw [if_neg]
      · have hs : firstIdx pat s = none := ih.mpr fun j => by simpa using h (j + 1)
        rw [hs]; rfl
      · intro hc
        have := h 0
        rw [List.drop_zero] at this
        rw [hc] at this
        cases this

theorem firstIdx_eq_some_of {pat s : List Char} {i : Nat}
    (hocc : pre pat (s.drop i) = true)
    (hmin : ∀ j, j < i → pre pat (s.drop j) = false) :
    firstIdx pat s = some i := by
  induction s generalizing i with
  | nil =>
    have h0 : pre pat [] = true := by simpa using hocc
    have hi : i = 0 := by
      by_contra hne
      have hf := hmin 0 (Nat.pos_of_ne_zero hne)
      rw [List.drop_nil] at hf
      rw [h0] at hf
      cases hf
    subst hi
    simp [firstIdx, h0]
  | cons b s ih =>
    cases i with
    | zero =>
      rw [List.drop_zero] at hocc
      simp [firstIdx, hocc]
    | succ i =>
      have hb : pre pat (b :: s) = false := by simpa using hmin 0 (Nat.succ_pos i)
      have hs : firstIdx pat s = some i :=
        ih (by simpa using hocc) (fun j hj => by simpa using hmin (j + 1) (by omega))
      simp [firstIdx, hb, hs]

theorem firstIdx_append_point {pat X Y : List Char}
    (hY : pre pat Y = true) (hnb : NoBorder pat)
    (hX : ∀ j, pre pat (X.drop j) = false) :
    firstIdx pat (X ++ Y) = some X.length := by
  apply firstIdx_eq_some_of
  · rw [List.drop_left]; exact hY
  · intro j hj
    cases hb : pre pat ((X ++ Y).drop j) with
    | false => rfl
    | true =>
      exfalso
      rw [List.drop_append_of_le_length (by omega)] at hb
      by_cases hc : pat.length ≤ (X.drop j).length
      · have := pre_of_append_of_le hb hc
        rw [hX j] at this
        cases this
      · push_neg at hc
        obtain ⟨_, hx2⟩ := pre_split hb hc
        have hkpos : 0 < (X.drop j).length := by
          rw [List.length_drop]; omega
        have hYtake : Y.take pat.length = pat := (pre_eq_true_iff _ _).mp hY
        have h2 : Y.take (pat.length - (X.drop j).length) = pat.drop (X.drop j).length := by
          have h3 := (pre_eq_true_iff _ _).mp hx2
          rwa [List.length_drop] at h3
        have h3 : Y.take (pat.length - (X.drop j).length) =
            pat.take (pat.length - (X.drop j).length) := by
          have h4 : (Y.take pat.length).take (pat.length - (X.drop j).length) =
              pat.take (pat.length - (X.drop j).length) := by rw [hYtake]
          rwa [List.take_take, Nat.min_eq_left (Nat.sub_le _ _)] at h4
        exact hnb (X.drop j).length hkpos hc (by rw [← h2, h3])

theorem no_occ_append_short {pat X Y : List Char}
    (hX : ∀ j, pre pat (X.drop j) = false)
    (hdisj : ∀ c ∈ Y, c ∉ pat) (hlen : Y.length < pat.length) :
    ∀ j, pre pat ((X ++ Y).drop j) = false := by
  intro j
  cases hb : pre pat ((X ++ Y).drop j) with
  | false => rfl
  | true =>
    exfalso
    by_cases hj : j ≤ X.length
    · rw [List.drop_append_of_le_length hj] at hb
      by_cases hc : pat.length ≤ (X.drop j).length
      · have := pre_of_append_of_le hb hc
        rw [hX j] at this
        cases this
      · push_neg at hc
        obtain ⟨_, hx2⟩ := pre_split hb hc
        have hc' : X.length - j < pat.length := by
          have hcc := hc
          rwa [List.length_drop] at hcc
        have hne2 : pat.drop (X.drop j).length ≠ [] := by
          intro hnil
          have hl := congrArg List.length hnil
          simp only [List.length_drop, List.length_nil] at hl
          omega
        obtain ⟨c, rest, hcr⟩ := List.exists_cons_of_ne_nil hne2
        rw [hcr] at hx2
        obtain ⟨Y', hY'⟩ := pre_cons_head hx2
        have hcY : c ∈ Y := by rw [hY']; exact List.mem_cons_self c Y'
        have hcpat : c ∈ pat := by
          have hcd : c ∈ pat.drop (X.drop j).length := by
            rw [hcr]; exact List.mem_cons_self c rest
          exact List.mem_of_mem_drop hcd
        exact hdisj c hcY hcpat
    · push_neg at hj
      have h2 : (X ++ Y).drop (X.length + (j - X.length)) = Y.drop (j - X.length) := by
        rw [← List.drop_drop, List.drop_left]
      have hj' : X.length + (j - X.length) = j := by omega
      rw [hj'] at h2
      rw [h2] at hb
      have h3 := pre_length hb
      rw [List.length_drop] at h3
      omega

theorem no_occ_take {pat s : List Char} {i : Nat} (hpat : pat ≠ [])
    (hmin : ∀ j, j < i → pre pat (s.drop j) = false) :
    ∀ j, pre pat ((s.take i).drop j) = false := by
  intro j
  by_cases hj : j < i
  · cases hb : pre pat ((s.take i).drop j) with
    | false => rfl
    | true =>
      exfalso
      rw [List.drop_take] at hb
      have h2 := pre_of_pre_take hb
      rw [hmin j hj] at h2
      cases h2
  · push_neg at hj
    have hnil : (s.take i).drop j = [] := by
      apply List.drop_eq_nil_of_le
      rw [List.length_take]
      exact le_trans (Nat.min_le_left _ _) hj
    rw [hnil, pre_nil_false hpat]

theorem markerL_ne_nil : markerL ≠ [] := by decide

theorem nl4L_ne_nil : nl4L ≠ [] := by decide

theorem noBorder_markerL : NoBorder markerL := noBorder_of_noBorderB (by decide)

theorem noBorder_nl4L : NoBorder nl4L := noBorder_of_noBorderB (by decide)

theorem nl2L_disjoint_markerL : ∀ c ∈ nl2L, c ∉ markerL := by decide

theorem nl2L_shorter : nl2L.length < markerL.length := by decide

/-! ### Idempotence of the section patcher, branch by branch -/

theorem patch_idem_marker_present {doc sec secTail : List Char} {i : Nat}
    (h1 : firstIdx markerL doc = some i)
    (hsec : sec = markerL ++ secTail)
    (hTail : firstIdx nl4L secTail = none) :
    patchSection (patchSection doc sec) sec = patchSection doc sec := by
  have hocc := firstIdx_pre_drop h1
  have hmin := firstIdx_min h1
  have hi_le : i ≤ doc.length := by
    have hl := pre_length hocc
    rw [List.length_drop] at hl
    have hm : 0 < markerL.length := by decide
    omega
  have htake_len : (doc.take i).length = i := by
    rw [List.length_take]; exact Nat.min_eq_left hi_le
  have hXocc : ∀ j, pre markerL ((doc.take i).drop j) = false := no_occ_take markerL_ne_nil hmin
  have hTail' : ∀ j, pre nl4L (secTail.drop j) = false := (firstIdx_eq_none_iff _ _).mp hTail
  have hpre_sec0 : pre markerL sec = true := by
    rw [hsec]; exact pre_append_self _ _
  cases h2 : firstIdx nl4L (doc.drop (i + markerL.length)) with
  | some j =>
    have hT : pre nl4L ((doc.drop (i + markerL.length)).drop j) = true := firstIdx_pre_drop h2
    have hpre_secT :
        pre markerL (sec ++ (doc.drop (i + markerL.length)).drop j) = true := by
      rw [hsec, List.append_assoc]; exact pre_append_self _ _
    have hres1 : patchSection doc sec =
        doc.take i ++ (sec ++ (doc.drop (i + markerL.length)).drop j) := by
      simp only [patchSection, h1, h2, List.append_assoc]
    have hq : firstIdx markerL
        (doc.take i ++ (sec ++ (doc.drop (i + markerL.length)).drop j)) =
        some (doc.take i).length :=
      firstIdx_append_point hpre_secT noBorder_markerL hXocc
    have hA2 : (doc.take i ++ (sec ++ (doc.drop (i + markerL.length)).drop j)).drop
        ((doc.take i).length + markerL.length) =
        secTail ++ (doc.drop (i + markerL.length)).drop j := by
      rw [← List.drop_drop, List.drop_left, hsec, List.append_assoc, List.drop_left]
    have hq2 : firstIdx nl4L (secTail ++ (doc.drop (i + markerL.length)).drop j) =
        some secTail.length :=
      firstIdx_append_point hT noBorder_nl4L hTail'
    have hres2 : patchSection
        (doc.take i ++ (sec ++ (doc.drop (i + markerL.length)).drop j)) sec =
        (doc.take i ++ (sec ++ (doc.drop (i + markerL.length)).drop j)).take
          (doc.take i).length ++ sec ++
        (secTail ++ (doc.drop (i + markerL.length)).drop j).drop secTail.length := by
      simp only [patchSection, hq, hA2, hq2]
    rw [hres1, hres2, List.take_left, List.drop_left, List.append_assoc]
  | none =>
    have hres1 : patchSection doc sec = doc.take i ++ sec := by
      simp only [patchSection, h1, h2]
    have hq : firstIdx markerL (doc.take i ++ sec) = some (doc.take i).length :=
      firstIdx_append_point hpre_sec0 noBorder_markerL hXocc
    have hA2 : (doc.take i ++ sec).drop ((doc.take i).length + markerL.length) = secTail := by
      rw [← List.drop_drop, List.drop_left, hsec, List.drop_left]
    have hres2 : patchSection (doc.take i ++ sec) sec =
        (doc.take i ++ sec).take (doc.take i).length ++ sec := by
      simp only [patchSection, hq, hA2, hTail]
    rw [hres1, hres2, List.take_left]

theorem patch_idem_absent {doc sec secTail : List Char}
    (hm : firstIdx markerL doc = none) (ha : firstIdx anchorL doc = none)
    (hsec : sec = markerL ++ secTail) (hTail : firstIdx nl4L secTail = none) :
    patchSection (patchSection doc sec) sec = patchSection doc sec := by
  have hres1 : patchSection doc sec = (doc ++ nl2L) ++ sec := by
    simp only [patchSection, hm, ha]
  have hdoc : ∀ j, pre markerL (doc.drop j) = false := (firstIdx_eq_none_iff _ _).mp hm
  have hX : ∀ j, pre markerL ((doc ++ nl2L).drop j) = false :=
    no_occ_append_short hdoc nl2L_disjoint_markerL nl2L_shorter
  have hpre_sec0 : pre markerL sec = true := by
    rw [hsec]; exact pre_append_self _ _
  have hq : firstIdx markerL ((doc ++ nl2L) ++ sec) = some (doc ++ nl2L).length :=
    firstIdx_append_point hpre_sec0 noBorder_markerL hX
  have hA2 : ((doc ++ nl2L) ++ sec).drop ((doc ++ nl2L).length + markerL.length) = secTail := by
    rw [← List.drop_drop, List.drop_left, hsec, List.drop_left]
  have hres2 : patchSection ((doc ++ nl2L) ++ sec) sec =
      ((doc ++ nl2L) ++ sec).take (doc ++ nl2L).length ++ sec := by
    simp only [patchSection, hq, hA2, hTail]
  rw [hres1, hres2, List.take_left]

/-! ### Task-id disjointness -/

theorem doc_id_ne_workflow_id (s t : String) :
    "doc-update-" ++ s ≠ "workflow-opt-" ++ t := by
  intro h
  have h2 : ('d' :: ("oc-update-".data ++ s.data)) =
      ('w' :: ("orkflow-opt-".data ++ t.data)) := congrArg String.data h
  injection h2 with h3 _
  exact absurd h3 (by decide)

theorem doc_id_ne_notebook_id (s t : String) :
    "doc-update-" ++ s ≠ "notebook-enhance-" ++ t := by
  intro h
  have h2 : ('d' :: ("oc-update-".data ++ s.data)) =
      ('n' :: ("otebook-enhance-".data ++ t.data)) := congrArg String.data h
  injection h2 with h3 _
  exact absurd h3 (by decide)

theorem workflow_id_ne_notebook_id (s t : String) :
    "workflow-opt-" ++ s ≠ "notebook-enhance-" ++ t := by
  intro h
  have h2 : ('w' :: ("orkflow-opt-".data ++ s.data)) =
      ('n' :: ("otebook-enhance-".data ++ t.data)) := congrArg String.data h
  injection h2 with h3 _
  exact absurd h3 (by decide)

/-- Every task produced by `generateTasks` is one of the four task literals of
the source. -/
theorem generateTasks_mem_cases {analysis : Analysis} {nowMs : Nat} {nowISO : String}
    {task : Task} (h : task ∈ generateTasks analysis nowMs nowISO) :
    task = docTask nowMs nowISO ∨ task = workflowTask nowMs nowISO ∨
    task = notebookTask nowMs nowISO ∨ task = generalTask nowMs nowISO := by
  by_cases h0 : analysis.recentPRs.length > 0
  · by_cases hd : hasDocumentationChanges analysis <;>
    by_cases hw : hasWorkflowChanges analysis <;>
    by_cases hn : hasNotebookChanges analysis <;>
    simp [generateTasks, h0, hd, hn, hw] at h <;>
    tauto
  · simp [generateTasks, h0] at h
    tauto

/-! ### Claim C1 — idempotence of the section patch -/

/-- Claim C1 counterexample: on a well-formed document containing no marker
heading but containing the anchor heading, patching twice with the same
generated section is not byte-identical to patching once (the second run
relocates the boundary at the later of the two inserted blank-line newlines
and drops one newline before the anchor). -/
theorem patchSection_anchor_insert_not_idempotent :
    firstIdx markerL anchorDoc = none ∧
    patchSection (patchSection anchorDoc genSec) genSec ≠ patchSection anchorDoc genSec := by
  exact ⟨by decide, by decide⟩

/-- Claim C1 (amended): the patch is idempotent for every document in the
replace-when-present case (the marker occurs, anywhere) and in the
append-at-end case (neither marker nor anchor occurs), for any generated
section (one starting with the marker heading and containing no further
same-level heading boundary); in the remaining insert-before-anchor case the
second application is not byte-identical to the first. -/
theorem patchSection_idempotent_replace_or_append (doc sec secTail : List Char)
    (hsec : sec = markerL ++ secTail)
    (hTail : firstIdx nl4L secTail = none)
    (hcase : (∃ i, firstIdx markerL doc = some i) ∨
      (firstIdx markerL doc = none ∧ firstIdx anchorL doc = none)) :
    patchSection (patchSection doc sec) sec = patchSection doc sec := by
  rcases hcase with ⟨i, h1⟩ | ⟨hm, ha⟩
  · exact patch_idem_marker_present h1 hsec hTail
  · exact patch_idem_absent hm ha hsec hTail

/-- Claim C1 witness: idempotence at a concrete marked document and the
section generated by the real pipeline. -/
theorem patchSection_idempotent_replace_or_append_witness :
    patchSection (patchSection markedDoc pipelineSec) pipelineSec =
      patchSection markedDoc pipelineSec :=
  patchSection_idempotent_replace_or_append markedDoc pipelineSec pipelineSecTail
    (by decide) (by decide) (Or.inl ⟨0, by decide⟩)

/-! ### Claim C2 — the category enumeration -/

/-- Claim C2 counterexample: on the empty analysis the synthesizer returns a
task whose `category` field is none of `documentation`, `automation`,
`feature`, `maintenance` (it is the literal `"enhancement"` spread in from
`baseTask`). -/
theorem task_category_field_not_in_enum_cx :
    ∃ task ∈ generateTasks emptyAnalysis 0 "2025-01-01T00:00:00.000Z",
      task.category ≠ "documentation" ∧ task.category ≠ "automation" ∧
      task.category ≠ "feature" ∧ task.category ≠ "maintenance" := by
  decide

/-- Claim C2 (amended): for every Analysis input, every task returned by the
synthesizer has its `type` field equal to one of exactly `documentation`,
`automation`, `feature`, `maintenance`, while its `category` field is always
the literal `"enhancement"`. -/
theorem generateTasks_type_in_enum (analysis : Analysis) (nowMs : Nat) (nowISO : String)
    (task : Task) (h : task ∈ generateTasks analysis nowMs nowISO) :
    (task.type = "documentation" ∨ task.type = "automation" ∨
      task.type = "feature" ∨ task.type = "maintenance") ∧
    task.category = "enhancement" := by
  rcases generateTasks_mem_cases h with rfl | rfl | rfl | rfl
  · exact ⟨Or.inl rfl, rfl⟩
  · exact ⟨Or.inr (Or.inl rfl), rfl⟩
  · exact ⟨Or.inr (Or.inr (Or.inl rfl)), rfl⟩
  · exact ⟨Or.inr (Or.inr (Or.inr rfl)), rfl⟩

/-- Claim C2 witness: the fallback task of the empty analysis. -/
theorem generateTasks_type_in_enum_witness :
    ((generalTask 0 "t").type = "documentation" ∨ (generalTask 0 "t").type = "automation" ∨
      (generalTask 0 "t").type = "feature" ∨ (generalTask 0 "t").type = "maintenance") ∧
    (generalTask 0 "t").category = "enhancement" :=
  generateTasks_type_in_enum emptyAnalysis 0 "t" (generalTask 0 "t") (by decide)

/-! ### Claim C3 — Scenario B -/

/-- Claim C3 counterexample: on an analysis whose one record touches only
`pipeline/ci.yml`, the synthesizer returns exactly ONE task (the
documentation-gap task), not two — the workflow rule tests for the substring
`.github/workflows`, which `pipeline/ci.yml` does not contain. -/
theorem scenarioB_literal_pipeline_path_cx :
    (generateTasks ciAnalysis 0 "t").length = 1 ∧
    (generateTasks ciAnalysis 0 "t").map Task.type = ["documentation"] ∧
    (generateTasks ciAnalysis 0 "t").map Task.category = ["enhancement"] := by
  exact ⟨by decide, by decide, by decide⟩

/-- Claim C3 (amended): for an Analysis with exactly one record whose file
deltas consist of the single path `.github/workflows/ci.yml` (a path under the
directory the source actually tests, with no documentation or notebook
suffix), the synthesizer returns exactly two tasks, in order: first one with
`type = "documentation"`, then one with `type = "automation"` (both carry
`category = "enhancement"`). -/
theorem scenarioB_workflows_path_two_tasks (analysis : Analysis) (pr : PRAnalysis)
    (f : FileInfo) (nowMs : Nat) (nowISO : String)
    (hrec : analysis.recentPRs = [pr]) (hfiles : pr.files = [f])
    (hname : f.filename = ".github/workflows/ci.yml") :
    (generateTasks analysis nowMs nowISO).map Task.type = ["documentation", "automation"] ∧
    (generateTasks analysis nowMs nowISO).map Task.category =
      ["enhancement", "enhancement"] := by
  have hd : hasDocumentationChanges analysis = false := by
    simp only [hasDocumentationChanges, hrec, List.any_cons, List.any_nil, Bool.or_false,
      hfiles, hname]
    decide
  have hw : hasWorkflowChanges analysis = true := by
    simp only [hasWorkflowChanges, hrec, List.any_cons, List.any_nil, Bool.or_false,
      hfiles, hname]
    decide
  have hn : hasNotebookChanges analysis = false := by
    simp only [hasNotebookChanges, hrec, List.any_cons, List.any_nil, Bool.or_false,
      hfiles, hname]
    decide
  have h0 : analysis.recentPRs.length > 0 := by rw [hrec]; simp
  have hres : generateTasks analysis nowMs nowISO =
      [docTask nowMs nowISO, workflowTask nowMs nowISO] := by
    simp [generateTasks, h0, hd, hw, hn]
  rw [hres]
  exact ⟨rfl, rfl⟩

/-- Claim C3 witness: the concrete one-record analysis touching
`.github/workflows/ci.yml`. -/
theorem scenarioB_workflows_path_two_tasks_witness :
    (generateTasks workflowsAnalysis 0 "t").map Task.type =
      ["documentation", "automation"] ∧
    (generateTasks workflowsAnalysis 0 "t").map Task.category =
      ["enhancement", "enhancement"] :=
  scenarioB_workflows_path_two_tasks workflowsAnalysis workflowsPR workflowsFile 0 "t"
    rfl rfl rfl

/-! ### Claim C4 — totality of task synthesis -/

/-- Claim C4: the synthesizer never returns an empty list: for every Analysis
input (including one with `recentPRs = []`), the returned task list has length
at least 1 — when the three pattern rules produce nothing the fallback task is
pushed. -/
theorem generateTasks_never_empty (analysis : Analysis) (nowMs : Nat) (nowISO : String) :
    0 < (generateTasks analysis nowMs nowISO).length := by
  by_cases h0 : analysis.recentPRs.length > 0
  · by_cases hd : hasDocumentationChanges analysis <;>
    by_cases hw : hasWorkflowChanges analysis <;>
    by_cases hn : hasNotebookChanges analysis <;>
    simp [generateTasks, h0, hd, hw, hn]
  · simp [generateTasks, h0]

/-! ### Claim C5 — analysis count invariant -/

/-- Claim C5: every analysis produced by the analyzer satisfies
`recentPRs.length ≤ totalPRs` and `recentPRs.length ≤ 5`: `totalPRs` counts
all merged records while `recentPRs` holds only the capped most-recent
subset. -/
theorem analysis_count_invariant (listing : Except String (List RawPR))
    (fetchFiles : Nat → Except String (List FileInfo)) (now : String) :
    (analyzeRecentPRs listing fetchFiles now).recentPRs.length ≤
      (analyzeRecentPRs listing fetchFiles now).totalPRs ∧
    (analyzeRecentPRs listing fetchFiles now).recentPRs.length ≤ 5 := by
  cases listing with
  | error e => exact ⟨Nat.zero_le _, Nat.zero_le _⟩
  | ok prs =>
    simp only [analyzeRecentPRs, List.length_map, List.length_take]
    exact ⟨Nat.min_le_right _ _, Nat.min_le_left _ _⟩

/-! ### Claim C6 — listing failure degrades to the zero analysis -/

/-- Claim C6: if the upstream listing call fails, the analyzer returns a
structurally valid Analysis with `totalPRs = 0`, `recentPRs = []` and the
error detail, rather than propagating the failure. -/
theorem analyzeRecentPRs_listing_failure_degrades (e : String)
    (fetchFiles : Nat → Except String (List FileInfo)) (now : String) :
    analyzeRecentPRs (Except.error e) fetchFiles now =
      { timestamp := now, totalPRs := 0, recentPRs := [], error := some e } := rfl

/-! ### Claim C7 — insertion before the anchor heading -/

/-- Claim C7 counterexample: a document containing the plain heading
`## License` (and no marker) does NOT get the section inserted before that
heading: the source searches for the literal `## 📄 License`, misses, and
appends the section at the end of the document instead. -/
theorem plain_license_anchor_cx :
    firstIdx markerL plainLicenseDoc = none ∧
    firstIdx ("## License".toList) plainLicenseDoc = some 16 ∧
    patchSection plainLicenseDoc genSec = plainLicenseDoc ++ nl2L ++ genSec ∧
    patchSection plainLicenseDoc genSec ≠
      plainLicenseDoc.take 16 ++ genSec ++ nl2L ++ plainLicenseDoc.drop 16 := by
  exact ⟨by decide, by decide, by decide, by decide⟩

/-- Claim C7 (amended): patching a document that contains no marker heading
but does contain the anchor heading `## 📄 License` inserts the new section
immediately before the first occurrence of that anchor heading, separated by
the `'\n\n'` blank-line separator, and leaves every byte before and after the
insertion point unchanged. -/
theorem patchSection_inserts_before_emoji_license_anchor (doc sec : List Char) (k : Nat)
    (hm : firstIdx markerL doc = none) (ha : firstIdx anchorL doc = some k) :
    patchSection doc sec = doc.take k ++ sec ++ nl2L ++ doc.drop k ∧
    (patchSection doc sec).take k = doc.take k ∧
    (patchSection doc sec).drop (k + (sec.length + 2)) = doc.drop k := by
  have heq : patchSection doc sec = doc.take k ++ sec ++ nl2L ++ doc.drop k := by
    simp only [patchSection, hm, ha]
  have hocc := firstIdx_pre_drop ha
  have hk : k ≤ doc.length := by
    have hl := pre_length hocc
    rw [List.length_drop] at hl
    have ha0 : 0 < anchorL.length := by decide
    omega
  have htl : (doc.take k).length = k := by
    rw [List.length_take]; exact Nat.min_eq_left hk
  refine ⟨heq, ?_, ?_⟩
  · rw [heq, List.append_assoc, List.append_assoc,
      List.take_append_of_le_length (by omega), List.take_take, Nat.min_self]
  · rw [heq, List.append_assoc, List.append_assoc,
      show k + (sec.length + 2) = (doc.take k).length + (sec.length + 2) from by rw [htl],
      ← List.drop_drop, List.drop_left, ← List.drop_drop, List.drop_left,
      List.drop_left' (show nl2L.length = 2 from rfl)]

/-- Claim C7 witness: concrete insertion before `## 📄 License` at index 16. -/
theorem patchSection_inserts_before_emoji_license_anchor_witness :
    patchSection anchorDoc genSec =
      anchorDoc.take 16 ++ genSec ++ nl2L ++ anchorDoc.drop 16 ∧
    (patchSection anchorDoc genSec).take 16 = anchorDoc.take 16 ∧
    (patchSection anchorDoc genSec).drop (16 + (genSec.length + 2)) =
      anchorDoc.drop 16 :=
  patchSection_inserts_before_emoji_license_anchor anchorDoc genSec 16
    (by decide) (by decide)

/-! ### Claim C8 — per-record fetch failure is isolated -/

/-- Claim C8: if the file listing fails for a merged record among the five
most recent, that record still appears in `recentPRs` with an empty `files`
list and a summary computed over the empty list, and no record is dropped
(the capped record count is unchanged). -/
theorem analyzeRecentPRs_fetch_failure_isolated (prs : List RawPR)
    (fetchFiles : Nat → Except String (List FileInfo)) (now e : String) (pr : RawPR)
    (hmem : pr ∈ (prs.filter fun p => p.merged_at.isSome).take 5)
    (hfail : fetchFiles pr.number = Except.error e) :
    (∃ entry ∈ (analyzeRecentPRs (Except.ok prs) fetchFiles now).recentPRs,
      entry.number = pr.number ∧ entry.files = [] ∧
      entry.summary = generatePRSummary pr []) ∧
    (analyzeRecentPRs (Except.ok prs) fetchFiles now).recentPRs.length =
      ((prs.filter fun p => p.merged_at.isSome).take 5).length := by
  simp only [analyzeRecentPRs]
  constructor
  · refine ⟨_, List.mem_map_of_mem _ hmem, ?_, ?_, ?_⟩
    · rfl
    · simp only [hfail]
    · simp only [hfail]
  · rw [List.length_map]

/-- Claim C8 witness: a single merged PR whose file fetch always fails. -/
theorem analyzeRecentPRs_fetch_failure_isolated_witness :
    (∃ entry ∈ (analyzeRecentPRs (Except.ok [mergedRawPR]) failingFetch "now").recentPRs,
      entry.number = mergedRawPR.number ∧ entry.files = [] ∧
      entry.summary = generatePRSummary mergedRawPR []) ∧
    (analyzeRecentPRs (Except.ok [mergedRawPR]) failingFetch "now").recentPRs.length =
      (([mergedRawPR].filter fun p => p.merged_at.isSome).take 5).length :=
  analyzeRecentPRs_fetch_failure_isolated [mergedRawPR] failingFetch "now" "boom"
    mergedRawPR (by decide) rfl

/-! ### Claim C9 — task ids are pairwise distinct within a run -/

/-- Claim C9: within a single synthesizer run no two returned tasks share an
id: each fired rule contributes a distinct literal id prefix, so even with the
shared timestamp suffix the ids are pairwise distinct. -/
theorem generateTasks_ids_nodup (analysis : Analysis) (nowMs : Nat) (nowISO : String) :
    ((generateTasks analysis nowMs nowISO).map Task.id).Nodup := by
  by_cases h0 : analysis.recentPRs.length > 0
  · by_cases hd : hasDocumentationChanges analysis <;>
    by_cases hw : hasWorkflowChanges analysis <;>
    by_cases hn : hasNotebookChanges analysis <;>
    simp [generateTasks, h0, hd, hw, hn, docTask, workflowTask, notebookTask, generalTask,
      doc_id_ne_workflow_id, doc_id_ne_notebook_id, workflow_id_ne_notebook_id]
  · simp [generateTasks, h0]

/-! ### Claim C10 — noninterference of task synthesis -/

/-- Claim C10: at a fixed clock instant, the synthesizer's output depends only
on whether `recentPRs` is empty and on the three touched-path predicates
(documentation suffix, workflows substring, notebook suffix): two analyses
agreeing on those four observations yield identical task lists, so counts,
titles, descriptions, summaries and line counts have no influence. -/
theorem generateTasks_noninterference (a1 a2 : Analysis) (nowMs : Nat) (nowISO : String)
    (h0 : a1.recentPRs = [] ↔ a2.recentPRs = [])
    (hd : hasDocumentationChanges a1 = hasDocumentationChanges a2)
    (hw : hasWorkflowChanges a1 = hasWorkflowChanges a2)
    (hn : hasNotebookChanges a1 = hasNotebookChanges a2) :
    generateTasks a1 nowMs nowISO = generateTasks a2 nowMs nowISO := by
  have hlen : a1.recentPRs.length > 0 ↔ a2.recentPRs.length > 0 := by
    simp only [List.length_pos, ne_eq]
    exact not_congr h0
  unfold generateTasks
  by_cases h1 : a1.recentPRs.length > 0
  · rw [if_pos h1, if_pos (hlen.mp h1), hd, hw, hn]
  · rw [if_neg h1, if_neg (fun hh => h1 (hlen.mpr hh))]

/-- Claim C10 witness: two empty analyses differing in timestamp, total count
and error field produce the same task list. -/
theorem generateTasks_noninterference_witness :
    generateTasks emptyAnalysis 5 "iso" = generateTasks otherEmptyAnalysis 5 "iso" :=
  generateTasks_noninterference emptyAnalysis otherEmptyAnalysis 5 "iso" Iff.rfl rfl rfl rfl

end ContinuousAgent
